import Mathlib

/-!
Verification development for the `EnvService` secret-lifecycle manager of the
`be-pkg-env` package.

The TypeScript class `EnvService` (src/index.ts) is shallowly embedded here:

* `getVar` is a pure function over the process environment (`ProcessEnv`),
  returning `Except JsError JsValue`; the JS builtin `JSON.parse` is an
  external primitive, taken as a parameter `jsonParse`.
* `getSecret`, `init`, the renewal handlers and the shutdown hooks are
  embedded as explicit state-passing functions over `ServiceState`; every
  externally visible effect (store calls, metric increments, log lines,
  timer arming via `setTimeout(..).unref()`, `await delay(..)`, and
  `process.emit('SIGINT')`) is recorded as an `Event` in order of occurrence.
* Outcomes of network calls (`vault.read`, `vault.tokenRenewSelf`,
  `vault.write('sys/leases/renew', ..)`, `vault.kubernetesLogin`) are
  parameters, since the store is an external collaborator.
* The recursive retry loop of `renewToken` / `renewLease` is embedded as a
  one-invocation body returning `RenewalNext`: `.retry d` mirrors the
  recursive call `this.renewToken(d)` after the backoff wait, `.finish`
  mirrors the function returning (note the source never rethrows from these
  bodies: every `catch` swallows the error, so the embedded result type has
  no error case).
* JS numbers are modelled as `ℚ` (all arithmetic here is exact:
  `* 1000`, `* 0.6`, doubling, clamping), JS strings as `String`, and the
  `lodash.get` dotted-path projection is implemented over a JSON value tree.
-/

namespace EnvService

/-- JS runtime values as far as the service manipulates them: `undefined`,
`null`, booleans, numbers (exact rationals), strings and JSON objects. -/
inductive JsValue where
  | undefined
  | null
  | bool (b : Bool)
  | num (q : ℚ)
  | str (s : String)
  | obj (fields : List (String × JsValue))

/-- JS truthiness on the modelled values (`undefined`, `null`, `false`, `0`
and the empty string are falsy; objects are always truthy). -/
def jsTruthy : JsValue → Bool
  | .undefined => false
  | .null => false
  | .bool b => b
  | .num q => !(q == 0)
  | .str s => !(s == "")
  | .obj _ => true

/-- The JS `typeof` operator on the modelled values (`typeof null` is
`"object"`). -/
def jsTypeof : JsValue → String
  | .undefined => "undefined"
  | .null => "object"
  | .bool _ => "boolean"
  | .num _ => "number"
  | .str _ => "string"
  | .obj _ => "object"

/-- Whether a value is the JS `undefined` (for the `!== undefined` check in
`getVar`). -/
def JsValue.isUndefined : JsValue → Bool
  | .undefined => true
  | _ => false

/-- The process environment: a map from variable names to the string values
of the set variables (`none` = the variable is unset). -/
def ProcessEnv : Type := String → Option String

/-- The `type` argument of `getVar`. -/
inductive VarType where
  | string
  | boolean
  | number
  | object
deriving DecidableEq

/-- The `typeof` name each `VarType` is compared against in `getVar`. -/
def VarType.typeofName : VarType → String
  | .string => "string"
  | .boolean => "boolean"
  | .number => "number"
  | .object => "object"

/-- Errors thrown by the embedded service.  `notDefined` is the
`Env variable .. is not defined` error, `parseError` the wrapping
`Error while parsing ..` error of `getVar` (whose `inner` part carries the
swallowed `JSON.parse` / `typeof` error text), and `external` stands for a
rethrown error of an external store call. -/
inductive JsError where
  | notDefined (name : String)
  | parseError (name : String) (value : String) (inner : String)
  | external (message : String)
deriving DecidableEq

/-- The rendered message of an embedded error, as the source interpolates
it. -/
def JsError.message : JsError → String
  | .notDefined name => "Env variable " ++ name ++ " is not defined"
  | .parseError name value inner =>
      "Error while parsing " ++ name ++ " variable. Current value: " ++ value ++ "; " ++ inner
  | .external m => m

/-- JS falsiness of an optional environment value: the `if (!value)` test of
`getVar` is true exactly when the variable is unset or set to the empty
string. -/
def envFalsy : Option String → Bool
  | none => true
  | some v => v == ""

/-- The default-or-throw branch of `getVar`, transliterating
`if (defaultValue || defaultValue !== undefined) return defaultValue` and
the subsequent `throw new Error(..)`. -/
def getVarDefault (name : String) (defaultValue : JsValue) : Except JsError JsValue :=
  if jsTruthy defaultValue || !(JsValue.isUndefined defaultValue) then .ok defaultValue
  else .error (.notDefined name)

/-- `EnvService.getVar(name, type, defaultValue)`.  `jsonParse` is the JS
builtin `JSON.parse`, an external primitive (`none` models a thrown
`SyntaxError`).  An omitted default argument is `JsValue.undefined`. -/
def getVar (jsonParse : String → Option JsValue) (env : ProcessEnv) (name : String)
    (ty : VarType) (defaultValue : JsValue) : Except JsError JsValue :=
  match env name with
  | none => getVarDefault name defaultValue
  | some value =>
    if value = "" then getVarDefault name defaultValue
    else if ty = .string then .ok (.str value)
    else
      match jsonParse value with
      | none => .error (.parseError name value "SyntaxError")
      | some parsedValue =>
        if jsTypeof parsedValue = ty.typeofName then .ok parsedValue
        else .error (.parseError name value
          ("TypeError: Unexpected typeof " ++ name ++ " variable; Current typeof "
            ++ jsTypeof parsedValue))

/-- The `Env` enum of `src/interfaces/index.ts`. -/
inductive Env where
  | Local
  | Test
  | Stage
  | Dev
  | Prod
deriving DecidableEq

/-- The string value each `Env` member is declared with. -/
def Env.toTag : Env → String
  | .Local => "local"
  | .Test => "test"
  | .Stage => "stage"
  | .Dev => "dev"
  | .Prod => "prod"

/-- `EnvService.getEnv()`: the raw `process.env.NODE_ENV`, cast to `Env`
without any validation. -/
def getEnv (env : ProcessEnv) : Option String := env "NODE_ENV"

/-- `EnvService.isLocal()`. -/
def isLocal (env : ProcessEnv) : Bool := decide (getEnv env = some (Env.toTag .Local))

/-- `EnvService.isTest()`. -/
def isTest (env : ProcessEnv) : Bool := decide (getEnv env = some (Env.toTag .Test))

/-- `EnvService.isStage()`. -/
def isStage (env : ProcessEnv) : Bool := decide (getEnv env = some (Env.toTag .Stage))

/-- `EnvService.isDev()`. -/
def isDev (env : ProcessEnv) : Bool := decide (getEnv env = some (Env.toTag .Dev))

/-- `EnvService.isProd()`. -/
def isProd (env : ProcessEnv) : Bool := decide (getEnv env = some (Env.toTag .Prod))

/-- C10: `getEnv` returns the raw process environment tag without validating
it; the five predicates are pairwise exclusive (their count of `true`s is at
most one for any environment), and when `NODE_ENV` is unset or not one of
the five declared tags, all five predicates return `false`. -/
theorem claim_c10_env_predicates (env : ProcessEnv) :
    getEnv env = env "NODE_ENV"
    ∧ (isLocal env).toNat + (isTest env).toNat + (isStage env).toNat
        + (isDev env).toNat + (isProd env).toNat ≤ 1
    ∧ ((∀ e : Env, getEnv env ≠ some (Env.toTag e)) →
        isLocal env = false ∧ isTest env = false ∧ isStage env = false
          ∧ isDev env = false ∧ isProd env = false) := by
  refine ⟨rfl, ?_, ?_⟩
  · by_cases hl : getEnv env = some (Env.toTag .Local) <;>
      by_cases ht : getEnv env = some (Env.toTag .Test) <;>
      by_cases hs : getEnv env = some (Env.toTag .Stage) <;>
      by_cases hd : getEnv env = some (Env.toTag .Dev) <;>
      by_cases hp : getEnv env = some (Env.toTag .Prod) <;>
      simp_all [isLocal, isTest, isStage, isDev, isProd, Env.toTag]
  · intro h
    simp [isLocal, isTest, isStage, isDev, isProd,
      h Env.Local, h Env.Test, h Env.Stage, h Env.Dev, h Env.Prod]

/-- Witness for C10 at a concrete environment whose `NODE_ENV` is the
out-of-range tag `"production"`: all five predicates are `false`. -/
theorem claim_c10_env_predicates_witness :
    getEnv (fun _ => some "production") = some "production"
    ∧ (isLocal (fun _ => some "production") = false
        ∧ isTest (fun _ => some "production") = false
        ∧ isStage (fun _ => some "production") = false
        ∧ isDev (fun _ => some "production") = false
        ∧ isProd (fun _ => some "production") = false) :=
  ⟨rfl, (claim_c10_env_predicates (fun _ => some "production")).2.2
    (fun e => by cases e <;> simp [getEnv, Env.toTag])⟩

/-- Helper: when the variable is set to a non-empty string and the requested
type is `string`, `getVar` returns the raw value, independently of both the
default argument and the parse primitive. -/
theorem getVar_string_of_set (jsonParse : String → Option JsValue) (env : ProcessEnv)
    (name v : String) (h : env name = some v) (hv : v ≠ "") (d : JsValue) :
    getVar jsonParse env name .string d = .ok (.str v) := by
  simp [getVar, h, hv]

/-- Helper: when the `if (!value)` test of `getVar` holds (variable unset or
set to the empty string) and a default other than `undefined` was supplied,
`getVar` returns that default. -/
theorem getVar_default_of_falsy (jsonParse : String → Option JsValue) (env : ProcessEnv)
    (name : String) (ty : VarType) (h : envFalsy (env name) = true) (d : JsValue)
    (hd : d.isUndefined = false) :
    getVar jsonParse env name ty d = .ok d := by
  unfold getVar getVarDefault
  cases henv : env name with
  | none => simp [hd]
  | some v =>
    rw [henv] at h
    simp only [envFalsy, beq_iff_eq] at h
    simp [h, hd]

/-- Helper: when the `if (!value)` test of `getVar` holds and no default was
supplied (JS `undefined`), `getVar` throws the missing-variable error. -/
theorem getVar_error_of_falsy (jsonParse : String → Option JsValue) (env : ProcessEnv)
    (name : String) (ty : VarType) (h : envFalsy (env name) = true) :
    getVar jsonParse env name ty .undefined = .error (.notDefined name) := by
  unfold getVar getVarDefault
  cases henv : env name with
  | none => simp [jsTruthy, JsValue.isUndefined]
  | some v =>
    rw [henv] at h
    simp only [envFalsy, beq_iff_eq] at h
    simp [h, jsTruthy, JsValue.isUndefined]

/-- C5 counterexample: the variable `"X"` is set (to the empty string), yet
`getVar` returns whichever default was supplied — the result depends on the
default even though the variable is set, because the source tests the value
with the JS falsy check `if (!value)`, which conflates the empty string with
an unset variable.  This refutes the clause `a variable that is set, even to
a falsy string value, is never replaced by the default`. -/
theorem claim_c5_counterexample :
    (fun n => if n = "X" then some "" else none : ProcessEnv) "X" = some ""
    ∧ getVar (fun _ => none) (fun n => if n = "X" then some "" else none) "X"
        .string (.str "fallbackA") = .ok (.str "fallbackA")
    ∧ getVar (fun _ => none) (fun n => if n = "X" then some "" else none) "X"
        .string (.str "fallbackB") = .ok (.str "fallbackB") := by
  refine ⟨rfl, ?_, ?_⟩ <;> simp [getVar, getVarDefault, jsTruthy, JsValue.isUndefined]

/-- C5 (amended): for every supported type, `getVar` returns the supplied
default exactly when the variable is unset **or set to the empty string**
(the source's falsy test), honouring defaults that are the literal `false`,
zero, empty string or `null` (any default other than `undefined`); a
variable set to a non-empty string is never replaced by the default (the
result is independent of the default argument); and when the variable is
unset-or-empty and no default was supplied, `getVar` fails with the error
naming the missing variable. -/
theorem claim_c5_getVar_defaults (jsonParse : String → Option JsValue) (env : ProcessEnv)
    (name : String) (ty : VarType) :
    (∀ d : JsValue, envFalsy (env name) = true → d.isUndefined = false →
        getVar jsonParse env name ty d = .ok d)
    ∧ (envFalsy (env name) = true →
        getVar jsonParse env name ty .undefined = .error (.notDefined name)
          ∧ (JsError.notDefined name).message = "Env variable " ++ name ++ " is not defined")
    ∧ (∀ v, env name = some v → v ≠ "" →
        ∀ d d' : JsValue, getVar jsonParse env name ty d = getVar jsonParse env name ty d') := by
  refine ⟨fun d h hd => getVar_default_of_falsy jsonParse env name ty h d hd,
    fun h => ⟨getVar_error_of_falsy jsonParse env name ty h, rfl⟩,
    fun v hv hne d d' => ?_⟩
  unfold getVar
  rw [hv]
  simp [hne]

/-- Witness for C5 (amended) at a concrete unset variable with the literal
`false` default, a set variable (value `"200"`) that ignores the default,
and an unset variable without a default failing with the naming error. -/
theorem claim_c5_getVar_defaults_witness :
    getVar (fun _ => none) (fun n => if n = "SET" then some "200" else none) "MISSING"
        .boolean (.bool false) = .ok (.bool false)
    ∧ getVar (fun _ => none) (fun n => if n = "SET" then some "200" else none) "MISSING"
        .number .undefined = .error (.notDefined "MISSING")
    ∧ getVar (fun _ => none) (fun n => if n = "SET" then some "200" else none) "SET"
        .string (.str "100")
      = getVar (fun _ => none) (fun n => if n = "SET" then some "200" else none) "SET"
        .string .undefined := by
  refine ⟨?_, ?_, ?_⟩
  · exact (claim_c5_getVar_defaults (fun _ => none)
      (fun n => if n = "SET" then some "200" else none) "MISSING" .boolean).1
      (.bool false) (by simp [envFalsy]) rfl
  · exact ((claim_c5_getVar_defaults (fun _ => none)
      (fun n => if n = "SET" then some "200" else none) "MISSING" .number).2.1
      (by simp [envFalsy])).1
  · exact (claim_c5_getVar_defaults (fun _ => none)
      (fun n => if n = "SET" then some "200" else none) "SET" .string).2.2
      "200" (by simp) (by simp) (.str "100") .undefined

/-- Whether `pat` occurs at the head of `l` (prefix test on character
lists). -/
def leadsWith : List Char → List Char → Bool
  | [], _ => true
  | _ :: _, [] => false
  | p :: ps, c :: cs => p = c && leadsWith ps cs

/-- Whether `pat` occurs anywhere inside a character list. -/
def containsSeq (pat : List Char) : List Char → Bool
  | [] => leadsWith pat []
  | c :: cs => leadsWith pat (c :: cs) || containsSeq pat cs

/-- The JS `String.prototype.includes` substring test, as used by the
`err.message.includes(..)` checks of the renewal handlers (the patterns used
there are non-empty). -/
def strIncludes (hay pat : String) : Bool := containsSeq pat.toList hay.toList

/-- Splitting a character list at a separator character (every occurrence
separates; adjacent separators produce empty segments). -/
def splitOnChar (sep : Char) : List Char → List (List Char)
  | [] => [[]]
  | c :: cs =>
    match splitOnChar sep cs with
    | [] => if c = sep then [[], []] else [[c]]
    | r :: rs => if c = sep then [] :: r :: rs else (c :: r) :: rs

/-- A dotted `lodash.get` accessor path split into its keys. -/
def splitPath (s : String) : List String := (splitOnChar '.' s.toList).map (fun cs => String.mk cs)

/-- Field lookup in a JSON object (first binding wins, as in a JS object
literal read). -/
def lookupField : List (String × JsValue) → String → Option JsValue
  | [], _ => none
  | (k, v) :: rest, key => if k = key then some v else lookupField rest key

/-- Walking a key path into a JSON value: `none` when the path does not
exist (a non-object is reached, or a key is missing). -/
def getPath : JsValue → List String → Option JsValue
  | v, [] => some v
  | .obj fields, key :: rest =>
    match lookupField fields key with
    | some v => getPath v rest
    | none => none
  | _, _ :: _ => none

/-- `lodash.get(value, accessor)` for a dotted accessor and no default: the
value at the path, or JS `undefined` when the path does not resolve. -/
def lodashGet (v : JsValue) (accessor : String) : JsValue :=
  (getPath v (splitPath accessor)).getD .undefined

/-- The `status` label values of the `vault_requests_total` counter. -/
inductive Status where
  | success
  | failure
deriving DecidableEq

/-- The `method` label values of the `vault_requests_total` counter. -/
inductive Method where
  | get_secret
  | renew_token
  | renew_lease
deriving DecidableEq

/-- Which renewal a `setTimeout(..).unref()` timer will fire. -/
inductive TimerKind where
  | tokenRenewal
  | leaseRenewal (leaseId : String)
deriving DecidableEq

/-- Externally visible effects of the service, recorded in order of
occurrence.  `armTimer` is `setTimeout(..).unref()` with its delay in
milliseconds, `wait` is the backoff `await delay(retryDelay, null,
{ref: false})`, `emitSigint` is `process.emit('SIGINT')`, `clearToken` is
the local `this.vault.token = ''` assignment, and the `store..`/`call..`
events are the network calls on the vault client. -/
inductive Event where
  | metricIncrement (status : Status) (method : Method)
  | logInfo (msg : String)
  | logError (msg : String)
  | armTimer (kind : TimerKind) (delayMs : ℚ)
  | storeRead (key : Option String)
  | callTokenRenewSelf
  | callLeaseRenew (leaseId : String)
  | storeRevoke
  | clearToken
  | wait (delayMs : ℚ)
  | emitSigint
deriving DecidableEq

/-- The `DurationMs` constants of `@diia-inhouse/types` used by the
source. -/
def DurationMs.Second : ℚ := 1000

/-- The `DurationMs.Minute` constant (default `VAULT_RENEWAL_MAX_DELAY`). -/
def DurationMs.Minute : ℚ := 60000

/-- The configured renewal constants of the service:
`renewalLeaseLifetime` is `VAULT_RENEWAL_LEASE_LIFETIME` (default `0.6`) and
`renewalMaxDelay` is `VAULT_RENEWAL_MAX_DELAY` (default
`DurationMs.Minute`). -/
structure Config where
  renewalLeaseLifetime : ℚ
  renewalMaxDelay : ℚ

/-- The vault client object (`this.vault` when not `null`); its `token`
field starts unset (modelled as `""`, which is exactly the JS-falsy token
values `undefined` and `''`). -/
structure VaultState where
  token : String

/-- The mutable state of the service: the vault client (`none` when the
store integration is disabled) and the `rawSecrets` cache.  The cache is the
JS `Map<string, ..>` keyed by the resolved path `envValue`; since `envValue`
is always a string or `null` at runtime, keys are modelled as
`Option String` (`none` = the `null` key). -/
structure ServiceState where
  vault : Option VaultState
  rawSecrets : List (Option String × JsValue)

/-- `Map.prototype.get` on the `rawSecrets` cache. -/
def lookupCache : List (Option String × JsValue) → Option String → Option JsValue
  | [], _ => none
  | (k, v) :: rest, key => if k = key then some v else lookupCache rest key

/-- `Map.prototype.set` on the `rawSecrets` cache: replace the binding when
the key is present, append otherwise. -/
def cacheSet (c : List (Option String × JsValue)) (key : Option String) (data : JsValue) :
    List (Option String × JsValue) :=
  match c with
  | [] => [(key, data)]
  | (k, v) :: rest => if k = key then (key, data) :: rest else (k, v) :: cacheSet rest key data

/-- The options object of `getSecret`: `accessor` defaults (by destructuring)
to `data.<envName>`, `nullable` is falsy when omitted. -/
structure GetSecretOps where
  accessor : Option String
  nullable : Bool

/-- The Map key the resolved `envValue` is looked up under (`envValue` is a
string or, when `nullable` is set and the variable falsy, `null`). -/
def cacheKey : JsValue → Option String
  | .str s => some s
  | _ => none

/-- The outcome of the external `vault.read(envValue)` call: the `data`
payload with `lease_id` (possibly the falsy `""` for static secrets) and
`lease_duration` in seconds, or a rejection. -/
inductive ReadOutcome where
  | ok (data : JsValue) (lease_id : String) (lease_duration : ℚ)
  | err (message : String)

/-- `EnvService.getRenewalDelay(leaseDurationS)`:
`leaseDurationS * DurationMs.Second * this.renewalLeaseLifetime`. -/
def getRenewalDelay (cfg : Config) (leaseDurationS : ℚ) : ℚ :=
  leaseDurationS * DurationMs.Second * cfg.renewalLeaseLifetime

/-- `EnvService.getSecret(envName, ops)`: resolve the path via
`getVar(envName, 'string', nullable ? null : undefined)`; when the vault is
disabled return it directly; otherwise serve from the `rawSecrets` cache or
read from the store, scheduling lease renewal when a truthy `lease_id` is
returned, caching the payload, emitting one metric observation, and
projecting the accessor with `lodash.get`. -/
def getSecret (cfg : Config) (jsonParse : String → Option JsValue) (env : ProcessEnv)
    (read : JsValue → ReadOutcome) (st : ServiceState) (envName : String)
    (ops : GetSecretOps) : Except JsError JsValue × ServiceState × List Event :=
  let accessor := ops.accessor.getD ("data." ++ envName)
  match getVar jsonParse env envName .string (if ops.nullable then .null else .undefined) with
  | .error e => (.error e, st, [])
  | .ok envValue =>
    match st.vault with
    | none => (.ok envValue, st, [])
    | some _ =>
      match lookupCache st.rawSecrets (cacheKey envValue) with
      | some cachedRawSecret => (.ok (lodashGet cachedRawSecret accessor), st, [])
      | none =>
        match read envValue with
        | .ok data leaseId leaseDuration =>
          (.ok (lodashGet data accessor),
           ServiceState.mk st.vault (cacheSet st.rawSecrets (cacheKey envValue) data),
           Event.storeRead (cacheKey envValue) ::
             ((if leaseId = "" then [] else
                [Event.armTimer (.leaseRenewal leaseId) (getRenewalDelay cfg leaseDuration)]) ++
              [Event.metricIncrement .success .get_secret]))
        | .err message =>
          (.error (.external message), st,
           [Event.storeRead (cacheKey envValue),
            Event.metricIncrement .failure .get_secret,
            Event.logError "Failed to get vault secret"])

/-- `EnvService.revokeToken()`: a no-op when `this.vault?.token` is falsy
(vault disabled, or token unset/empty); otherwise clear the token locally
(`this.vault.token = ''`, the `clearToken` event) and then call the store's
`tokenRevokeSelf` (the `storeRevoke` event). -/
def revokeToken (st : ServiceState) : ServiceState × List Event :=
  match st.vault with
  | none => (st, [])
  | some v =>
    if v.token = "" then (st, [])
    else (ServiceState.mk (some (VaultState.mk "")) st.rawSecrets,
          [Event.clearToken, Event.storeRevoke])

/-- `EnvService.onDestroy()`: delegates to `revokeToken`. -/
def onDestroy (st : ServiceState) : ServiceState × List Event := revokeToken st

/-- `EnvService.onBeforeApplicationShutdown()`: delegates to `revokeToken`
(kept for backward compatibility with older hosts). -/
def onBeforeApplicationShutdown (st : ServiceState) : ServiceState × List Event := revokeToken st

/-- The two differently-named shutdown hook mechanisms. -/
inductive Hook where
  | destroy
  | beforeShutdown
deriving DecidableEq

/-- Running one shutdown hook. -/
def runHook (st : ServiceState) : Hook → ServiceState × List Event
  | .destroy => onDestroy st
  | .beforeShutdown => onBeforeApplicationShutdown st

/-- Running a sequence of shutdown hook invocations, threading the state and
collecting the events in order. -/
def runHooks : ServiceState → List Hook → ServiceState × List Event
  | st, [] => (st, [])
  | st, h :: hs =>
    let r := runHook st h
    let r' := runHooks r.1 hs
    (r'.1, r.2 ++ r'.2)

/-- The outcome of the external login sequence of `init` (the
`fs.readFile` of the bootstrap token followed by `vault.kubernetesLogin`):
the session token with its lease duration and audit accessor, or a
rejection. -/
inductive LoginOutcome where
  | ok (client_token : String) (lease_duration : ℚ) (accessor : String)
  | err (message : String)

/-- `EnvService.init()`: a no-op when the vault is disabled; on login
success store the token, log the audit accessor (never the token value) and
arm the first token-renewal timer at `getRenewalDelay`; on failure log and
rethrow (initialization is fatal and never retried). -/
def initBody (cfg : Config) (st : ServiceState) (login : LoginOutcome) :
    Except JsError Unit × ServiceState × List Event :=
  match st.vault with
  | none => (.ok (), st, [])
  | some _ =>
    match login with
    | .ok token leaseDuration _accessor =>
      (.ok (), ServiceState.mk (some (VaultState.mk token)) st.rawSecrets,
       [Event.logInfo "Vault token accessor",
        Event.armTimer .tokenRenewal (getRenewalDelay cfg leaseDuration)])
    | .err message =>
      (.error (.external message), st, [Event.logError "Failed to init vault"])

/-- The outcome of an external renewal call (`vault.tokenRenewSelf` or
`vault.write('sys/leases/renew', ..)`): the returned `lease_duration` in
seconds, or the rejection's error message. -/
inductive RenewOutcome where
  | ok (lease_duration : ℚ)
  | err (message : String)

/-- How one invocation of a renewal body continues: `.retry d` mirrors the
recursive self-call with `retryDelay = d` performed after the backoff wait,
`.finish` mirrors the body returning (success, terminal error, or vault
absent).  The source bodies never rethrow, so there is no error case. -/
inductive RenewalNext where
  | retry (nextRetryDelay : ℚ)
  | finish
deriving DecidableEq

/-- The cap applied to the retry delay:
`if (retryDelay > this.renewalMaxDelay) retryDelay = this.renewalMaxDelay`. -/
def clampDelay (cfg : Config) (d : ℚ) : ℚ :=
  if d > cfg.renewalMaxDelay then cfg.renewalMaxDelay else d

/-- One invocation of `EnvService.renewToken(retryDelay)` (default argument
`DurationMs.Second`), given the outcome of the `tokenRenewSelf` call.  On
success: arm the next token timer and emit the success metric.  On an error
whose message includes `permission denied`: log and emit `SIGINT`, nothing
else (no metric, no retry).  On any other error: emit the failure metric,
clamp the delay, log (the source interpolates the clamped delay into the
message; the text is elided here), wait the clamped delay, and recurse with
its double. -/
def renewTokenBody (cfg : Config) (vaultPresent : Bool) (outcome : RenewOutcome)
    (retryDelay : ℚ) : List Event × RenewalNext :=
  if vaultPresent = false then ([], .finish)
  else
    match outcome with
    | .ok leaseDuration =>
      ([Event.logInfo "Start vault token renewing", Event.callTokenRenewSelf,
        Event.armTimer .tokenRenewal (getRenewalDelay cfg leaseDuration),
        Event.metricIncrement .success .renew_token], .finish)
    | .err msg =>
      if strIncludes msg "permission denied" then
        ([Event.logInfo "Start vault token renewing", Event.callTokenRenewSelf,
          Event.logError "Vault token is revoked. Exiting", Event.emitSigint], .finish)
      else
        ([Event.logInfo "Start vault token renewing", Event.callTokenRenewSelf,
          Event.metricIncrement .failure .renew_token,
          Event.logError "Failed to renew vault token. Retrying",
          Event.wait (clampDelay cfg retryDelay)],
         .retry (clampDelay cfg retryDelay * 2))

/-- One invocation of `EnvService.renewLease(leaseId, retryDelay)` (default
argument `DurationMs.Second`), given the outcome of the
`sys/leases/renew` call.  Identical structure to `renewTokenBody` except the
terminal signature is `lease not found`, the labels say `renew_lease`, and
the source logs the retry message before clamping (the waited delay is the
clamped one either way). -/
def renewLeaseBody (cfg : Config) (vaultPresent : Bool) (leaseId : String)
    (outcome : RenewOutcome) (retryDelay : ℚ) : List Event × RenewalNext :=
  if vaultPresent = false then ([], .finish)
  else
    match outcome with
    | .ok leaseDuration =>
      ([Event.logInfo "Start vault lease renewing", Event.callLeaseRenew leaseId,
        Event.armTimer (.leaseRenewal leaseId) (getRenewalDelay cfg leaseDuration),
        Event.metricIncrement .success .renew_lease], .finish)
    | .err msg =>
      if strIncludes msg "lease not found" then
        ([Event.logInfo "Start vault lease renewing", Event.callLeaseRenew leaseId,
          Event.logError "Vault lease is revoked. Exiting", Event.emitSigint], .finish)
      else
        ([Event.logInfo "Start vault lease renewing", Event.callLeaseRenew leaseId,
          Event.metricIncrement .failure .renew_lease,
          Event.logError "Failed to renew vault lease. Retrying",
          Event.wait (clampDelay cfg retryDelay)],
         .retry (clampDelay cfg retryDelay * 2))

/-- The `retryDelay` argument of the `n`-th consecutive recoverable-failure
invocation of a renewal body: the first invocation (fired by the renewal
timer) uses the default `DurationMs.Second`; each failing invocation
recurses with double its clamped delay. -/
def carriedRetryDelay (cfg : Config) : ℕ → ℚ
  | 0 => DurationMs.Second
  | n + 1 => clampDelay cfg (carriedRetryDelay cfg n) * 2

/-- The delay actually waited before the `n`-th retry (the clamped carried
delay). -/
def waitedRetryDelay (cfg : Config) (n : ℕ) : ℚ := clampDelay cfg (carriedRetryDelay cfg n)

/-- C6 counterexample: with the store integration disabled and the variable
`"X"` set to the empty string, `getSecret` rejects with the missing-variable
error instead of returning the raw value `""` — the source resolves the path
through `getVar`, whose JS falsy test `if (!value)` conflates an
empty-string value with an unset variable.  This refutes the clause that
`getSecret(name)` returns the raw value of the equivalently-named
environment variable whenever it is set. -/
theorem claim_c6_counterexample :
    (fun n => if n = "X" then some "" else none : ProcessEnv) "X" = some ""
    ∧ getSecret (Config.mk (3/5) 60000) (fun _ => none)
        (fun n => if n = "X" then some "" else none) (fun _ => .err "unreachable")
        (ServiceState.mk none []) "X" (GetSecretOps.mk none false)
      = (.error (.notDefined "X"), ServiceState.mk none [], []) := by
  refine ⟨rfl, ?_⟩
  simp [getSecret, getVar, getVarDefault, jsTruthy, JsValue.isUndefined]

/-- C6 (amended): with the store integration disabled (`this.vault` is
`null`), `getSecret(name)` returns the raw value of the equivalently-named
environment variable whenever that variable is set to a **non-empty**
string, and never contacts the store (no events at all); when the variable
is unset or set to the empty string, `getSecret` rejects with the
missing-variable error unless the `nullable` option was requested, in which
case it resolves with a `null` result instead. -/
theorem claim_c6_disabled_getSecret (cfg : Config) (jsonParse : String → Option JsValue)
    (env : ProcessEnv) (read : JsValue → ReadOutcome) (st : ServiceState)
    (hst : st.vault = none) (envName : String) (ops : GetSecretOps) :
    (∀ v, env envName = some v → v ≠ "" →
        getSecret cfg jsonParse env read st envName ops = (.ok (.str v), st, []))
    ∧ (envFalsy (env envName) = true → ops.nullable = true →
        getSecret cfg jsonParse env read st envName ops = (.ok .null, st, []))
    ∧ (envFalsy (env envName) = true → ops.nullable = false →
        getSecret cfg jsonParse env read st envName ops = (.error (.notDefined envName), st, [])) := by
  refine ⟨fun v hv hne => ?_, fun hf hn => ?_, fun hf hn => ?_⟩
  · have hg := getVar_string_of_set jsonParse env envName v hv hne
      (if ops.nullable then JsValue.null else JsValue.undefined)
    simp [getSecret, hg, hst]
  · have hg := getVar_default_of_falsy jsonParse env envName .string hf JsValue.null rfl
    simp [getSecret, hn, hg, hst]
  · have hg := getVar_error_of_falsy jsonParse env envName .string hf
    simp [getSecret, hn, hg, hst]

/-- Witness for C6 (amended): a set variable returns its raw value with no
events; an unset variable yields `null` under `nullable` and the naming
error otherwise. -/
theorem claim_c6_disabled_getSecret_witness :
    getSecret (Config.mk (3/5) 60000) (fun _ => none)
        (fun n => if n = "S" then some "secret-env" else none) (fun _ => .err "down")
        (ServiceState.mk none []) "S" (GetSecretOps.mk (some "accessor") false)
      = (.ok (.str "secret-env"), ServiceState.mk none [], [])
    ∧ getSecret (Config.mk (3/5) 60000) (fun _ => none) (fun _ => none)
        (fun _ => .err "down") (ServiceState.mk none []) "S"
        (GetSecretOps.mk (some "accessor") true)
      = (.ok .null, ServiceState.mk none [], [])
    ∧ getSecret (Config.mk (3/5) 60000) (fun _ => none) (fun _ => none)
        (fun _ => .err "down") (ServiceState.mk none []) "S"
        (GetSecretOps.mk (some "accessor") false)
      = (.error (.notDefined "S"), ServiceState.mk none [], []) := by
  refine ⟨?_, ?_, ?_⟩
  · exact (claim_c6_disabled_getSecret (Config.mk (3/5) 60000) (fun _ => none)
      (fun n => if n = "S" then some "secret-env" else none) (fun _ => .err "down")
      (ServiceState.mk none []) rfl "S" (GetSecretOps.mk (some "accessor") false)).1
      "secret-env" rfl (by simp)
  · exact (claim_c6_disabled_getSecret (Config.mk (3/5) 60000) (fun _ => none)
      (fun _ => none) (fun _ => .err "down")
      (ServiceState.mk none []) rfl "S" (GetSecretOps.mk (some "accessor") true)).2.1
      rfl rfl
  · exact (claim_c6_disabled_getSecret (Config.mk (3/5) 60000) (fun _ => none)
      (fun _ => none) (fun _ => .err "down")
      (ServiceState.mk none []) rfl "S" (GetSecretOps.mk (some "accessor") false)).2.2
      rfl rfl

/-- Helper: `Map.set` under a key that is absent from the cache preserves
every present binding. -/
theorem lookupCache_cacheSet_preserve (c : List (Option String × JsValue))
    (k k' : Option String) (d data : JsValue) (hk : lookupCache c k = some data)
    (hk' : lookupCache c k' = none) :
    lookupCache (cacheSet c k' d) k = some data := by
  induction c with
  | nil => simp [lookupCache] at hk
  | cons hd tl ih =>
    obtain ⟨a, b⟩ := hd
    by_cases hak' : a = k'
    · subst hak'
      simp [lookupCache] at hk'
    · by_cases hak : a = k
      · subst hak
        simp [lookupCache] at hk
        simp [cacheSet, hak', lookupCache, hk]
      · simp [lookupCache, hak] at hk
        simp [lookupCache, hak'] at hk'
        simp only [cacheSet, if_neg hak', lookupCache, if_neg hak]
        exact ih hk hk'

/-- Helper: a `getSecret` step from any state preserves any present cache
binding — the store-read branch only runs when its own key was absent, so
its `Map.set` cannot touch a populated entry. -/
theorem getSecret_preserves_cache (cfg : Config) (jsonParse : String → Option JsValue)
    (env : ProcessEnv) (read : JsValue → ReadOutcome) (st : ServiceState)
    (envName : String) (ops : GetSecretOps) (k : Option String) (data : JsValue)
    (h : lookupCache st.rawSecrets k = some data) :
    lookupCache (getSecret cfg jsonParse env read st envName ops).2.1.rawSecrets k
      = some data := by
  unfold getSecret
  split
  · exact h
  · split
    · exact h
    · split
      · exact h
      · split
        · exact lookupCache_cacheSet_preserve st.rawSecrets k _ _ data h (by assumption)
        · exact h

/-- C4: with the store integration enabled, a `getSecret` call resolving to
a path whose cache entry is populated returns the `lodash.get` projection of
the cached payload with **no** events (no store read, no metric, no timer)
and an unchanged state; moreover a populated entry is never evicted or
overwritten: every `getSecret` step (any arguments, any state), every
`revokeToken` and both shutdown hooks, and every `initBody` step leave it
intact. -/
theorem claim_c4_cache_hit (cfg : Config) (jsonParse : String → Option JsValue)
    (env : ProcessEnv) (read : JsValue → ReadOutcome) (st : ServiceState) (v : VaultState)
    (envName p : String) (data : JsValue) (ops : GetSecretOps)
    (hv : st.vault = some v) (hp : env envName = some p) (hpne : p ≠ "")
    (hcache : lookupCache st.rawSecrets (some p) = some data) :
    getSecret cfg jsonParse env read st envName ops
      = (.ok (lodashGet data (ops.accessor.getD ("data." ++ envName))), st, [])
    ∧ (∀ (cfg' : Config) (jsonParse' : String → Option JsValue) (env' : ProcessEnv)
        (read' : JsValue → ReadOutcome) (st' : ServiceState) (envName' : String)
        (ops' : GetSecretOps), lookupCache st'.rawSecrets (some p) = some data →
          lookupCache (getSecret cfg' jsonParse' env' read' st' envName' ops').2.1.rawSecrets
            (some p) = some data)
    ∧ (∀ st' : ServiceState, (revokeToken st').1.rawSecrets = st'.rawSecrets
        ∧ (onDestroy st').1.rawSecrets = st'.rawSecrets
        ∧ (onBeforeApplicationShutdown st').1.rawSecrets = st'.rawSecrets)
    ∧ (∀ (cfg' : Config) (st' : ServiceState) (login : LoginOutcome),
        (initBody cfg' st' login).2.1.rawSecrets = st'.rawSecrets) := by
  refine ⟨?_, ?_, ?_, ?_⟩
  · have hg := getVar_string_of_set jsonParse env envName p hp hpne
      (if ops.nullable then JsValue.null else JsValue.undefined)
    simp [getSecret, hg, hv, cacheKey, hcache]
  · exact fun cfg' jsonParse' env' read' st' envName' ops' h =>
      getSecret_preserves_cache cfg' jsonParse' env' read' st' envName' ops' (some p) data h
  · intro st'
    have hr : (revokeToken st').1.rawSecrets = st'.rawSecrets := by
      unfold revokeToken
      split
      · rfl
      · split <;> rfl
    exact ⟨hr, hr, hr⟩
  · intro cfg' st' login
    unfold initBody
    split
    · rfl
    · split <;> rfl

/-- Witness for C4 at a concrete populated cache: the second read of path
`"p"` is served from cache and projects `data.S` out of the cached payload. -/
theorem claim_c4_cache_hit_witness :
    getSecret (Config.mk (3/5) 60000) (fun _ => none)
        (fun n => if n = "S" then some "p" else none) (fun _ => .err "down")
        (ServiceState.mk (some (VaultState.mk "tok"))
          [(some "p", JsValue.obj [("data", JsValue.obj [("S", JsValue.str "cached-secret")])])])
        "S" (GetSecretOps.mk none false)
      = (.ok (lodashGet
            (JsValue.obj [("data", JsValue.obj [("S", JsValue.str "cached-secret")])]) "data.S"),
         ServiceState.mk (some (VaultState.mk "tok"))
          [(some "p", JsValue.obj [("data", JsValue.obj [("S", JsValue.str "cached-secret")])])],
         [])
    ∧ lodashGet (JsValue.obj [("data", JsValue.obj [("S", JsValue.str "cached-secret")])]) "data.S"
      = JsValue.str "cached-secret" := by
  refine ⟨?_, ?_⟩
  · exact (claim_c4_cache_hit (Config.mk (3/5) 60000) (fun _ => none)
      (fun n => if n = "S" then some "p" else none) (fun _ => .err "down")
      (ServiceState.mk (some (VaultState.mk "tok"))
        [(some "p", JsValue.obj [("data", JsValue.obj [("S", JsValue.str "cached-secret")])])])
      (VaultState.mk "tok") "S" "p"
      (JsValue.obj [("data", JsValue.obj [("S", JsValue.str "cached-secret")])])
      (GetSecretOps.mk none false) rfl rfl (by simp) (by simp [lookupCache])).1
  · rfl

/-- C9: with the store integration enabled and `getSecret` succeeding — from
the cache or from a store read — a requested accessor dotted path that does
not resolve inside the structured payload yields the JS `undefined` value
(not a rejection, and not `null`), despite the operation's declared
`Promise<string>` result type: `lodash.get` with no default returns
`undefined` for a missing path and the source returns it as-is. -/
theorem claim_c9_missing_accessor (cfg : Config) (jsonParse : String → Option JsValue)
    (env : ProcessEnv) (read : JsValue → ReadOutcome) (st : ServiceState) (v : VaultState)
    (envName p : String) (data : JsValue) (ops : GetSecretOps)
    (hv : st.vault = some v) (hp : env envName = some p) (hpne : p ≠ "")
    (hmiss : getPath data (splitPath (ops.accessor.getD ("data." ++ envName))) = none) :
    (lookupCache st.rawSecrets (some p) = some data →
        getSecret cfg jsonParse env read st envName ops = (.ok .undefined, st, []))
    ∧ (∀ leaseId leaseDuration, lookupCache st.rawSecrets (some p) = none →
        read (.str p) = .ok data leaseId leaseDuration →
        (getSecret cfg jsonParse env read st envName ops).1 = .ok .undefined)
    ∧ JsValue.undefined ≠ JsValue.null := by
  have hund : lodashGet data (ops.accessor.getD ("data." ++ envName)) = .undefined := by
    simp [lodashGet, hmiss]
  have hg := getVar_string_of_set jsonParse env envName p hp hpne
    (if ops.nullable then JsValue.null else JsValue.undefined)
  refine ⟨fun hcache => ?_, fun leaseId leaseDuration hnone hread => ?_, by simp⟩
  · simp [getSecret, hg, hv, cacheKey, hcache, hund]
  · simp [getSecret, hg, hv, cacheKey, hnone, hread, hund]

/-- Witness for C9: the cached payload holds `data.S` but the caller asks
for accessor `"data.MISSING"`; the call resolves with `undefined`. -/
theorem claim_c9_missing_accessor_witness :
    getSecret (Config.mk (3/5) 60000) (fun _ => none)
        (fun n => if n = "S" then some "p" else none) (fun _ => .err "down")
        (ServiceState.mk (some (VaultState.mk "tok"))
          [(some "p", JsValue.obj [("data", JsValue.obj [("S", JsValue.str "x")])])])
        "S" (GetSecretOps.mk (some "data.MISSING") false)
      = (.ok .undefined,
         ServiceState.mk (some (VaultState.mk "tok"))
          [(some "p", JsValue.obj [("data", JsValue.obj [("S", JsValue.str "x")])])],
         [])
    ∧ JsValue.undefined ≠ JsValue.null := by
  refine ⟨?_, by simp⟩
  exact (claim_c9_missing_accessor (Config.mk (3/5) 60000) (fun _ => none)
    (fun n => if n = "S" then some "p" else none) (fun _ => .err "down")
    (ServiceState.mk (some (VaultState.mk "tok"))
      [(some "p", JsValue.obj [("data", JsValue.obj [("S", JsValue.str "x")])])])
    (VaultState.mk "tok") "S" "p"
    (JsValue.obj [("data", JsValue.obj [("S", JsValue.str "x")])])
    (GetSecretOps.mk (some "data.MISSING") false) rfl rfl (by simp) rfl).1
    (by simp [lookupCache])

/-- The number of store revoke calls (`vault.tokenRevokeSelf`) in an event
trace. -/
def countRevokes (evs : List Event) : ℕ :=
  evs.countP fun e => decide (e = Event.storeRevoke)

/-- Helper: each shutdown hook delegates to `revokeToken`. -/
theorem runHook_eq_revokeToken (st : ServiceState) (h : Hook) :
    runHook st h = revokeToken st := by
  cases h <;> rfl

/-- Helper: a state whose token is already cleared (or whose vault is
disabled) is a fixed point of any sequence of shutdown hooks, producing no
events. -/
theorem runHooks_cleared (st : ServiceState)
    (hrev : st.vault = none ∨ ∃ v, st.vault = some v ∧ v.token = "")
    (hs : List Hook) : runHooks st hs = (st, []) := by
  induction hs with
  | nil => rfl
  | cons h0 tl ih =>
    have hstep : runHook st h0 = (st, []) := by
      rw [runHook_eq_revokeToken]
      unfold revokeToken
      rcases hrev with hn | ⟨v, hv, ht⟩
      · rw [hn]
      · rw [hv]
        simp [ht]
    simp [runHooks, hstep, ih]

/-- C3: invoking the shutdown hooks (`onDestroy` and/or
`onBeforeApplicationShutdown`) any non-zero number of times, in any order,
produces exactly one store revoke call when the vault holds a (truthy)
token and zero store calls otherwise; the first effective invocation clears
the token locally (`clearToken`) before the revoke call (`storeRevoke`),
every later invocation observes the cleared token and performs no store
call, the final token is cleared, and the secret cache is untouched. -/
theorem claim_c3_revoke_idempotent (st : ServiceState) (hs : List Hook) (h : hs ≠ []) :
    (runHooks st hs).2 =
      (match st.vault with
       | some v => if v.token = "" then [] else [Event.clearToken, Event.storeRevoke]
       | none => [])
    ∧ countRevokes (runHooks st hs).2 =
      (match st.vault with
       | some v => if v.token = "" then 0 else 1
       | none => 0)
    ∧ (runHooks st hs).1.vault = st.vault.map (fun _ => VaultState.mk "")
    ∧ (runHooks st hs).1.rawSecrets = st.rawSecrets := by
  obtain ⟨h0, tl, rfl⟩ : ∃ h0 tl, hs = h0 :: tl := by
    cases hs with
    | nil => exact absurd rfl h
    | cons a b => exact ⟨a, b, rfl⟩
  rcases hst : st.vault with _ | v
  · have hr := runHooks_cleared st (Or.inl hst) (h0 :: tl)
    simp [hr, hst, countRevokes]
  · by_cases htok : v.token = ""
    · have hr := runHooks_cleared st (Or.inr ⟨v, hst, htok⟩) (h0 :: tl)
      cases v with
      | mk tok =>
        simp only [VaultState.mk.injEq] at htok
        simp [hr, hst, htok, countRevokes]
    · have hstep : runHook st h0 =
          (ServiceState.mk (some (VaultState.mk "")) st.rawSecrets,
           [Event.clearToken, Event.storeRevoke]) := by
        rw [runHook_eq_revokeToken]
        unfold revokeToken
        rw [hst]
        simp [htok]
      have hrest := runHooks_cleared
        (ServiceState.mk (some (VaultState.mk "")) st.rawSecrets)
        (Or.inr ⟨VaultState.mk "", rfl, rfl⟩) tl
      simp [runHooks, hstep, hrest, hst, htok, countRevokes]

/-- Witness for C3: calling `onDestroy` then `onBeforeApplicationShutdown`
on a state holding token `"vault-token"` revokes exactly once (clearing the
token first); the same pair of invocations on a disabled-store state makes
zero store calls. -/
theorem claim_c3_revoke_idempotent_witness :
    (runHooks (ServiceState.mk (some (VaultState.mk "vault-token")) [])
        [Hook.destroy, Hook.beforeShutdown]).2 = [Event.clearToken, Event.storeRevoke]
    ∧ countRevokes (runHooks (ServiceState.mk (some (VaultState.mk "vault-token")) [])
        [Hook.destroy, Hook.beforeShutdown]).2 = 1
    ∧ (runHooks (ServiceState.mk (some (VaultState.mk "vault-token")) [])
        [Hook.destroy, Hook.beforeShutdown]).1.vault = some (VaultState.mk "")
    ∧ countRevokes (runHooks (ServiceState.mk none [])
        [Hook.destroy, Hook.beforeShutdown]).2 = 0 := by
  have h1 := claim_c3_revoke_idempotent (ServiceState.mk (some (VaultState.mk "vault-token")) [])
    [Hook.destroy, Hook.beforeShutdown] (by simp)
  have h2 := claim_c3_revoke_idempotent (ServiceState.mk none [])
    [Hook.destroy, Hook.beforeShutdown] (by simp)
  refine ⟨?_, ?_, ?_, ?_⟩
  · simpa using h1.1
  · simpa using h1.2.1
  · simpa using h1.2.2.1
  · simpa using h2.2.1

/-- Projection of a type-checked `number` result of `getVar` (the fallback
branch is unreachable for results of `getVar(.., 'number', ..)`). -/
def asNum : JsValue → ℚ
  | .num q => q
  | _ => 0

/-- The renewal constants as the constructor reads them:
`VAULT_RENEWAL_LEASE_LIFETIME` (type `number`, default `0.6 = 3/5`) and
`VAULT_RENEWAL_MAX_DELAY` (type `number`, default `DurationMs.Minute`). -/
def envServiceConfig (jsonParse : String → Option JsValue) (env : ProcessEnv) :
    Except JsError Config :=
  match getVar jsonParse env "VAULT_RENEWAL_LEASE_LIFETIME" .number (.num (3/5)) with
  | .error e => .error e
  | .ok lt =>
    match getVar jsonParse env "VAULT_RENEWAL_MAX_DELAY" .number (.num DurationMs.Minute) with
    | .error e => .error e
    | .ok md => .ok (Config.mk (asNum lt) (asNum md))

/-- C7: for every successful login (`initBody`), token renewal, or secret
read returning lease duration `D` seconds, the next renewal timer is armed
with delay `D * 1000 * renewal_fraction` milliseconds, where the fraction is
`VAULT_RENEWAL_LEASE_LIFETIME` defaulting to `0.6` (and the max delay
defaults to `60000`); in each of these success traces the timer-arming event
is present before any renewal call for that credential is made (renewal
calls happen only inside a later timer invocation; the only call event in a
renewal-success trace is the just-completed call, which precedes the
arming). -/
theorem claim_c7_renewal_delay (cfg : Config) (jsonParse : String → Option JsValue)
    (env : ProcessEnv) (D : ℚ) :
    getRenewalDelay cfg D = D * 1000 * cfg.renewalLeaseLifetime
    ∧ (envFalsy (env "VAULT_RENEWAL_LEASE_LIFETIME") = true →
        envFalsy (env "VAULT_RENEWAL_MAX_DELAY") = true →
        envServiceConfig jsonParse env = .ok (Config.mk (3/5) 60000))
    ∧ (∀ (st : ServiceState) (v : VaultState) (token acc : String), st.vault = some v →
        (initBody cfg st (.ok token D acc)).2.2
          = [Event.logInfo "Vault token accessor",
             Event.armTimer .tokenRenewal (getRenewalDelay cfg D)]
        ∧ Event.callTokenRenewSelf ∉ (initBody cfg st (.ok token D acc)).2.2)
    ∧ (∀ d, renewTokenBody cfg true (.ok D) d
        = ([Event.logInfo "Start vault token renewing", Event.callTokenRenewSelf,
            Event.armTimer .tokenRenewal (getRenewalDelay cfg D),
            Event.metricIncrement .success .renew_token], .finish))
    ∧ (∀ d leaseId, renewLeaseBody cfg true leaseId (.ok D) d
        = ([Event.logInfo "Start vault lease renewing", Event.callLeaseRenew leaseId,
            Event.armTimer (.leaseRenewal leaseId) (getRenewalDelay cfg D),
            Event.metricIncrement .success .renew_lease], .finish))
    ∧ (∀ (read : JsValue → ReadOutcome) (st : ServiceState) (v : VaultState)
        (envName p leaseId : String) (data : JsValue) (ops : GetSecretOps),
        st.vault = some v → env envName = some p → p ≠ "" →
        lookupCache st.rawSecrets (some p) = none →
        read (.str p) = .ok data leaseId D → leaseId ≠ "" →
        (getSecret cfg jsonParse env read st envName ops).2.2
          = [Event.storeRead (some p),
             Event.armTimer (.leaseRenewal leaseId) (getRenewalDelay cfg D),
             Event.metricIncrement .success .get_secret]
        ∧ (∀ lid, Event.callLeaseRenew lid ∉ (getSecret cfg jsonParse env read st envName ops).2.2)
        ∧ Event.callTokenRenewSelf ∉ (getSecret cfg jsonParse env read st envName ops).2.2) := by
  refine ⟨rfl, fun h1 h2 => ?_, fun st v token acc hv => ?_, fun d => ?_, fun d leaseId => ?_,
    fun read st v envName p leaseId data ops hv hp hpne hnone hread hlid => ?_⟩
  · have g1 := getVar_default_of_falsy jsonParse env "VAULT_RENEWAL_LEASE_LIFETIME" .number h1
      (.num (3/5)) rfl
    have g2 := getVar_default_of_falsy jsonParse env "VAULT_RENEWAL_MAX_DELAY" .number h2
      (.num DurationMs.Minute) rfl
    rw [show DurationMs.Minute = 60000 from rfl] at g2
    simp [envServiceConfig, g1, g2, asNum, DurationMs.Minute]
  · constructor
    · simp [initBody, hv]
    · simp [initBody, hv]
  · simp [renewTokenBody]
  · simp [renewLeaseBody]
  · have hg := getVar_string_of_set jsonParse env envName p hp hpne
      (if ops.nullable then JsValue.null else JsValue.undefined)
    refine ⟨?_, fun lid => ?_, ?_⟩ <;>
      simp [getSecret, hg, hv, cacheKey, hnone, hread, hlid]

/-- Witness for C7: with the default configuration and lease duration 120 s
the timer delay is `120 * 1000 * 0.6 = 72000` ms; an environment leaving
both renewal variables unset yields the default configuration; and the
renewal-success trace arms the timer at that delay. -/
theorem claim_c7_renewal_delay_witness :
    getRenewalDelay (Config.mk (3/5) 60000) 120 = 72000
    ∧ envServiceConfig (fun _ => none) (fun _ => none) = .ok (Config.mk (3/5) 60000)
    ∧ renewTokenBody (Config.mk (3/5) 60000) true (.ok 120) 1000
      = ([Event.logInfo "Start vault token renewing", Event.callTokenRenewSelf,
          Event.armTimer .tokenRenewal 72000,
          Event.metricIncrement .success .renew_token], .finish) := by
  have h := claim_c7_renewal_delay (Config.mk (3/5) 60000) (fun _ => none) (fun _ => none) 120
  have hd : getRenewalDelay (Config.mk (3/5) 60000) 120 = 72000 := by
    rw [h.1]
    norm_num
  refine ⟨hd, h.2.1 rfl rfl, ?_⟩
  rw [← hd]
  exact h.2.2.2.1 1000

/-- Helper: the source's clamp `if (retryDelay > max) retryDelay = max` is
the binary minimum with the cap. -/
theorem clampDelay_eq_min (cfg : Config) (d : ℚ) :
    clampDelay cfg d = min d cfg.renewalMaxDelay := by
  unfold clampDelay
  rcases le_or_lt d cfg.renewalMaxDelay with h | h
  · rw [if_neg (not_lt.mpr h), min_eq_left h]
  · rw [if_pos h, min_eq_right h.le]

/-- Helper: closed form of the waited backoff delay — the `n`-th consecutive
recoverable failure waits `min (1000 * 2 ^ n) max` milliseconds. -/
theorem waitedRetryDelay_eq_min (cfg : Config) (hM : 0 ≤ cfg.renewalMaxDelay) (n : ℕ) :
    waitedRetryDelay cfg n = min (1000 * 2 ^ n) cfg.renewalMaxDelay := by
  induction n with
  | zero =>
    have h0 : waitedRetryDelay cfg 0 = clampDelay cfg 1000 := rfl
    rw [h0, clampDelay_eq_min, pow_zero, mul_one]
  | succ n ih =>
    have hstep : waitedRetryDelay cfg (n + 1)
        = clampDelay cfg (waitedRetryDelay cfg n * 2) := rfl
    rw [hstep, clampDelay_eq_min, ih, pow_succ, ← mul_assoc]
    rcases le_total (1000 * 2 ^ n) cfg.renewalMaxDelay with hle | hge
    · rw [min_eq_left hle]
    · have ha : (0:ℚ) ≤ 1000 * 2 ^ n := by positivity
      rw [min_eq_right hge,
        min_eq_right (by linarith : cfg.renewalMaxDelay ≤ cfg.renewalMaxDelay * 2),
        min_eq_right (by linarith : cfg.renewalMaxDelay ≤ 1000 * 2 ^ n * 2)]

/-- C1: across any sequence of consecutive recoverable renewal failures
(token or lease), the actually waited retry delay starts at 1000 ms (the
`DurationMs.Second` base), follows the doubling closed form
`min (1000 * 2 ^ n) max` capped at the configured `renewalMaxDelay`, never
exceeds the cap, and on every recoverable failure — for every `n`, so
unboundedly — the body waits that delay and recurses (`.retry`) with the
next carried delay; only a success or a non-recoverable signature (covered
by C2) ends the loop. -/
theorem claim_c1_backoff (cfg : Config) (hM : 1000 ≤ cfg.renewalMaxDelay)
    (msg : ℕ → String) (leaseId : String)
    (hrecT : ∀ n, strIncludes (msg n) "permission denied" = false)
    (hrecL : ∀ n, strIncludes (msg n) "lease not found" = false) :
    waitedRetryDelay cfg 0 = 1000
    ∧ (∀ n, waitedRetryDelay cfg n = min (1000 * 2 ^ n) cfg.renewalMaxDelay)
    ∧ (∀ n, waitedRetryDelay cfg n ≤ cfg.renewalMaxDelay)
    ∧ (∀ n, renewTokenBody cfg true (.err (msg n)) (carriedRetryDelay cfg n)
        = ([Event.logInfo "Start vault token renewing", Event.callTokenRenewSelf,
            Event.metricIncrement .failure .renew_token,
            Event.logError "Failed to renew vault token. Retrying",
            Event.wait (waitedRetryDelay cfg n)],
           .retry (carriedRetryDelay cfg (n + 1))))
    ∧ (∀ n, renewLeaseBody cfg true leaseId (.err (msg n)) (carriedRetryDelay cfg n)
        = ([Event.logInfo "Start vault lease renewing", Event.callLeaseRenew leaseId,
            Event.metricIncrement .failure .renew_lease,
            Event.logError "Failed to renew vault lease. Retrying",
            Event.wait (waitedRetryDelay cfg n)],
           .retry (carriedRetryDelay cfg (n + 1)))) := by
  have hM0 : (0:ℚ) ≤ cfg.renewalMaxDelay := le_trans (by norm_num) hM
  refine ⟨?_, waitedRetryDelay_eq_min cfg hM0, fun n => ?_, fun n => ?_, fun n => ?_⟩
  · rw [waitedRetryDelay_eq_min cfg hM0 0, pow_zero, mul_one, min_eq_left hM]
  · rw [waitedRetryDelay_eq_min cfg hM0 n]
    exact min_le_right _ _
  · simp [renewTokenBody, hrecT n, waitedRetryDelay, carriedRetryDelay]
  · simp [renewLeaseBody, hrecL n, waitedRetryDelay, carriedRetryDelay]

/-- Witness for C1 with the default configuration (base 1000, cap 60000) and
a recoverable error message: the waited delays are 1000, then 8000 at the
fourth failure, and are pinned at the 60000 cap from the seventh failure
onward. -/
theorem claim_c1_backoff_witness :
    waitedRetryDelay (Config.mk (3/5) 60000) 0 = 1000
    ∧ waitedRetryDelay (Config.mk (3/5) 60000) 3 = 8000
    ∧ waitedRetryDelay (Config.mk (3/5) 60000) 7 = 60000
    ∧ waitedRetryDelay (Config.mk (3/5) 60000) 8 = 60000
    ∧ waitedRetryDelay (Config.mk (3/5) 60000) 8 ≤ 60000 := by
  have h := claim_c1_backoff (Config.mk (3/5) 60000) (by norm_num)
    (fun _ => "connect ETIMEDOUT") "lease-id"
    (fun _ => (by decide : strIncludes "connect ETIMEDOUT" "permission denied" = false))
    (fun _ => (by decide : strIncludes "connect ETIMEDOUT" "lease not found" = false))
  refine ⟨h.1, ?_, ?_, ?_, h.2.2.1 8⟩
  · rw [h.2.1 3]
    norm_num [min_def]
  · rw [h.2.1 7]
    norm_num [min_def]
  · rw [h.2.1 8]
    norm_num [min_def]

/-- C2: a renewal failing with the non-recoverable signature (token: message
includes `permission denied`; lease: message includes `lease not found`)
schedules no retry and no timer (`.finish`, no `wait`, no `armTimer`), logs
the event, and emits the controlled termination signal
(`process.emit('SIGINT')`); the body returns normally — its result type has
no throw case because every `catch` in the source swallows the error — so
nothing is thrown from the timer callback, and no further renewal is
attempted for that credential. -/
theorem claim_c2_terminal (cfg : Config) (d : ℚ) (msgT msgL leaseId : String)
    (hT : strIncludes msgT "permission denied" = true)
    (hL : strIncludes msgL "lease not found" = true) :
    renewTokenBody cfg true (.err msgT) d
      = ([Event.logInfo "Start vault token renewing", Event.callTokenRenewSelf,
          Event.logError "Vault token is revoked. Exiting", Event.emitSigint], .finish)
    ∧ (∀ q, Event.wait q ∉ (renewTokenBody cfg true (.err msgT) d).1)
    ∧ (∀ k q, Event.armTimer k q ∉ (renewTokenBody cfg true (.err msgT) d).1)
    ∧ Event.emitSigint ∈ (renewTokenBody cfg true (.err msgT) d).1
    ∧ renewLeaseBody cfg true leaseId (.err msgL) d
      = ([Event.logInfo "Start vault lease renewing", Event.callLeaseRenew leaseId,
          Event.logError "Vault lease is revoked. Exiting", Event.emitSigint], .finish)
    ∧ (∀ q, Event.wait q ∉ (renewLeaseBody cfg true leaseId (.err msgL) d).1)
    ∧ (∀ k q, Event.armTimer k q ∉ (renewLeaseBody cfg true leaseId (.err msgL) d).1)
    ∧ Event.emitSigint ∈ (renewLeaseBody cfg true leaseId (.err msgL) d).1 := by
  refine ⟨?_, fun q => ?_, fun k q => ?_, ?_, ?_, fun q => ?_, fun k q => ?_, ?_⟩ <;>
    simp [renewTokenBody, renewLeaseBody, hT, hL]

/-- Witness for C2 at the literal signature messages. -/
theorem claim_c2_terminal_witness :
    renewTokenBody (Config.mk (3/5) 60000) true (.err "permission denied") 1000
      = ([Event.logInfo "Start vault token renewing", Event.callTokenRenewSelf,
          Event.logError "Vault token is revoked. Exiting", Event.emitSigint], .finish)
    ∧ renewLeaseBody (Config.mk (3/5) 60000) true "lease-id" (.err "lease not found") 1000
      = ([Event.logInfo "Start vault lease renewing", Event.callLeaseRenew "lease-id",
          Event.logError "Vault lease is revoked. Exiting", Event.emitSigint], .finish) := by
  have h := claim_c2_terminal (Config.mk (3/5) 60000) 1000 "permission denied"
    "lease not found" "lease-id" (by decide) (by decide)
  exact ⟨h.1, h.2.2.2.2.1⟩

/-- The number of `vault_requests_total` increments (any labels) in an
event trace. -/
def metricCount (evs : List Event) : ℕ :=
  evs.countP fun e => match e with
    | Event.metricIncrement _ _ => true
    | _ => false

/-- The number of `vault_requests_total` increments carrying the given
`status` and `method` labels. -/
def metricCountLabeled (evs : List Event) (s : Status) (m : Method) : ℕ :=
  evs.countP fun e => decide (e = Event.metricIncrement s m)

/-- C8 counterexample: a token-renewal store call that fails with the
terminal `permission denied` signature increments the observation counter
**zero** times — the terminal branch returns before the failure increment —
refuting the claim that every store operation increments the counter exactly
once. -/
theorem claim_c8_counterexample :
    Event.callTokenRenewSelf
      ∈ (renewTokenBody (Config.mk (3/5) 60000) true (.err "permission denied") 1000).1
    ∧ metricCount
        (renewTokenBody (Config.mk (3/5) 60000) true (.err "permission denied") 1000).1 = 0 := by
  have h : strIncludes "permission denied" "permission denied" = true := by decide
  constructor <;> simp [renewTokenBody, h, metricCount]

/-- C8 (amended): every store operation increments the observation counter
exactly once, with status `success` on success and `failure` on failure and
the matching method label (`get_secret`, `renew_token`, `renew_lease`) —
**except** a renewal failing with the terminal signature (`permission
denied` for the token, `lease not found` for a lease), which increments the
counter zero times and instead requests termination. -/
theorem claim_c8_metrics (cfg : Config) (jsonParse : String → Option JsValue)
    (env : ProcessEnv) (read : JsValue → ReadOutcome) (st : ServiceState) (v : VaultState)
    (envName p : String) (ops : GetSecretOps) (d : ℚ) (leaseId : String)
    (hv : st.vault = some v) (hp : env envName = some p) (hpne : p ≠ "")
    (hnone : lookupCache st.rawSecrets (some p) = none) :
    (∀ data lid ld, read (.str p) = .ok data lid ld →
        metricCountLabeled (getSecret cfg jsonParse env read st envName ops).2.2
            .success .get_secret = 1
        ∧ metricCount (getSecret cfg jsonParse env read st envName ops).2.2 = 1)
    ∧ (∀ m, read (.str p) = .err m →
        metricCountLabeled (getSecret cfg jsonParse env read st envName ops).2.2
            .failure .get_secret = 1
        ∧ metricCount (getSecret cfg jsonParse env read st envName ops).2.2 = 1)
    ∧ (∀ D, metricCountLabeled (renewTokenBody cfg true (.ok D) d).1 .success .renew_token = 1
        ∧ metricCount (renewTokenBody cfg true (.ok D) d).1 = 1)
    ∧ (∀ msg, strIncludes msg "permission denied" = false →
        metricCountLabeled (renewTokenBody cfg true (.err msg) d).1 .failure .renew_token = 1
        ∧ metricCount (renewTokenBody cfg true (.err msg) d).1 = 1)
    ∧ (∀ msg, strIncludes msg "permission denied" = true →
        metricCount (renewTokenBody cfg true (.err msg) d).1 = 0)
    ∧ (∀ D, metricCountLabeled (renewLeaseBody cfg true leaseId (.ok D) d).1
            .success .renew_lease = 1
        ∧ metricCount (renewLeaseBody cfg true leaseId (.ok D) d).1 = 1)
    ∧ (∀ msg, strIncludes msg "lease not found" = false →
        metricCountLabeled (renewLeaseBody cfg true leaseId (.err msg) d).1
            .failure .renew_lease = 1
        ∧ metricCount (renewLeaseBody cfg true leaseId (.err msg) d).1 = 1)
    ∧ (∀ msg, strIncludes msg "lease not found" = true →
        metricCount (renewLeaseBody cfg true leaseId (.err msg) d).1 = 0) := by
  have hg := getVar_string_of_set jsonParse env envName p hp hpne
    (if ops.nullable then JsValue.null else JsValue.undefined)
  refine ⟨fun data lid ld hread => ?_, fun m hread => ?_, fun D => ?_, fun msg hmsg => ?_,
    fun msg hmsg => ?_, fun D => ?_, fun msg hmsg => ?_, fun msg hmsg => ?_⟩
  · by_cases hlid : lid = "" <;>
      simp [getSecret, hg, hv, cacheKey, hnone, hread, hlid, metricCount, metricCountLabeled]
  · simp [getSecret, hg, hv, cacheKey, hnone, hread, metricCount, metricCountLabeled]
  · simp [renewTokenBody, metricCount, metricCountLabeled]
  · simp [renewTokenBody, hmsg, metricCount, metricCountLabeled]
  · simp [renewTokenBody, hmsg, metricCount, metricCountLabeled]
  · simp [renewLeaseBody, metricCount, metricCountLabeled]
  · simp [renewLeaseBody, hmsg, metricCount, metricCountLabeled]
  · simp [renewLeaseBody, hmsg, metricCount, metricCountLabeled]

/-- Witness for C8 (amended) at concrete arguments: one labelled increment
for a successful secret read, one for a recoverable renewal failure, zero
for a terminal one. -/
theorem claim_c8_metrics_witness :
    metricCountLabeled
        (getSecret (Config.mk (3/5) 60000) (fun _ => none)
          (fun n => if n = "S" then some "p" else none)
          (fun _ => .ok (JsValue.obj [("data", JsValue.obj [("S", JsValue.str "x")])])
            "lease-id" 120)
          (ServiceState.mk (some (VaultState.mk "tok")) []) "S"
          (GetSecretOps.mk none false)).2.2 .success .get_secret = 1
    ∧ metricCountLabeled
        (renewTokenBody (Config.mk (3/5) 60000) true (.err "connect ETIMEDOUT") 1000).1
        .failure .renew_token = 1
    ∧ metricCount
        (renewLeaseBody (Config.mk (3/5) 60000) true "lease-id" (.err "lease not found") 1000).1
      = 0 := by
  have h := claim_c8_metrics (Config.mk (3/5) 60000) (fun _ => none)
    (fun n => if n = "S" then some "p" else none)
    (fun _ => .ok (JsValue.obj [("data", JsValue.obj [("S", JsValue.str "x")])]) "lease-id" 120)
    (ServiceState.mk (some (VaultState.mk "tok")) []) (VaultState.mk "tok") "S" "p"
    (GetSecretOps.mk none false) 1000 "lease-id" rfl rfl (by simp) rfl
  exact ⟨(h.1 (JsValue.obj [("data", JsValue.obj [("S", JsValue.str "x")])]) "lease-id" 120 rfl).1,
    (h.2.2.2.1 "connect ETIMEDOUT" (by decide)).1,
    h.2.2.2.2.2.2.2 "lease not found" (by decide)⟩

end EnvService
